import Mathlib

/-!
# Verification of the binn Rust wrapper (src/binn/src/lib.rs)

The repository is a thin Rust wrapper (`BinnObject`, `BinnValue`) over the
external binn C codec reached through `binn_sys` (`binn_object_set`,
`binn_object_read`, `binn_open`, `binn_ptr`, `binn_size`).  The wrapper code
is embedded here definition by definition.  The codec itself is not part of
the repository's sources; its behaviour is modelled from the spec's contract
(self-describing framing: overall type/size header, then per-entry key,
type tag and, for variable-length types, a length, followed by the payload).

Machine bytes are `Nat`s understood to lie below 256; machine integers are
represented by their two's-complement bit patterns (a `Nat` below `2 ^ w`),
and the two float widths by their IEEE bit patterns, since the wrapper never
performs arithmetic on values, only storage and retrieval.
-/

namespace Binn

/-! ## Wire type tags

Tag numbering is internal to the model: the spec fixes only the behavioural
contract, not the numbering inherited from the external codec. -/

def BINN_BOOL : Nat := 0x01
def BINN_UINT8 : Nat := 0x20
def BINN_INT8 : Nat := 0x21
def BINN_UINT16 : Nat := 0x40
def BINN_INT16 : Nat := 0x41
def BINN_UINT32 : Nat := 0x60
def BINN_INT32 : Nat := 0x61
def BINN_FLOAT32 : Nat := 0x62
def BINN_UINT64 : Nat := 0x80
def BINN_INT64 : Nat := 0x81
def BINN_FLOAT64 : Nat := 0x82
def BINN_STRING : Nat := 0xA0
def BINN_OBJECT : Nat := 0xE2

/-- Payload width of the fixed-width scalar tags; `none` for the
variable-length tags (text, nested container) and for unknown tags. -/
def fixedTagWidth (t : Nat) : Option Nat :=
  if t = BINN_BOOL then some 1
  else if t = BINN_UINT8 then some 1
  else if t = BINN_INT8 then some 1
  else if t = BINN_UINT16 then some 2
  else if t = BINN_INT16 then some 2
  else if t = BINN_UINT32 then some 4
  else if t = BINN_INT32 then some 4
  else if t = BINN_FLOAT32 then some 4
  else if t = BINN_UINT64 then some 8
  else if t = BINN_INT64 then some 8
  else if t = BINN_FLOAT64 then some 8
  else none

/-- The two variable-length tags: text and embedded container. -/
def isVarTag (t : Nat) : Bool :=
  t = BINN_STRING || t = BINN_OBJECT

/-! ## Little-endian byte strings -/

/-- `w` little-endian base-256 digits of `x` (the bytes of a `w`-byte
machine integer on a little-endian target). -/
def encodeLE : Nat → Nat → List Nat
  | 0, _ => []
  | w + 1, x => x % 256 :: encodeLE w (x / 256)

/-- Value of a little-endian byte string. -/
def decodeLE : List Nat → Nat
  | [] => 0
  | b :: bs => b + 256 * decodeLE bs

theorem encodeLE_length (w x : Nat) : (encodeLE w x).length = w := by
  induction w generalizing x with
  | zero => rfl
  | succ w ih => simp [encodeLE, ih]

theorem decodeLE_encodeLE (w x : Nat) : decodeLE (encodeLE w x) = x % 256 ^ w := by
  induction w generalizing x with
  | zero => simp [encodeLE, decodeLE, Nat.mod_one]
  | succ w ih =>
    simp only [encodeLE, decodeLE, ih]
    rw [pow_succ', Nat.mod_mul]

/-! ## Codec state

The external codec's `binn` handle, at the level of the spec's contract: a
mode (freshly built, or opened over an existing buffer), the
`disable_int_compression` flag that `BinnObject::new` sets through the raw
struct, and the ordered key/tag/payload entries the buffer holds. -/

/-- An entry as framed on the wire: key bytes, type tag, payload bytes. -/
abbrev Entry := List Nat × Nat × List Nat

inductive Mode where
  | build
  | openedMode
  deriving DecidableEq, Repr

/-- Modelled from the spec: the state behind the external codec's `binn*`
handle — "open" mode (constructed from an existing byte buffer) versus
"build" mode (constructed fresh), plus the ordered encoded entries. -/
structure BinnState where
  mode : Mode
  disableIntCompression : Bool
  entries : List Entry
  deriving DecidableEq, Repr

/-- Key lookup over the encoded key space, first match wins (keys are unique
by the overwrite invariant). -/
def lookupKey : List Entry → List Nat → Option (Nat × List Nat)
  | [], _ => none
  | (k2, v) :: es, k => if k2 = k then some v else lookupKey es k

/-- Replace the entry for `k` in place when present, else append: the spec's
"setting an existing key overwrites its value-and-type atomically". -/
def setKey : List Entry → List Nat → Nat × List Nat → List Entry
  | [], k, v => [(k, v)]
  | (k2, v2) :: es, k, v =>
    if k2 = k then (k, v) :: es else (k2, v2) :: setKey es k v

/-- Well-formed entry: the key fits the one-byte key-length framing, the tag
is known, a fixed-width payload has exactly the tag's width, and a
variable-length payload fits the four-byte length framing. -/
def entryOKb (e : Entry) : Bool :=
  decide (e.1.length < 256) &&
    (match fixedTagWidth e.2.1 with
     | some w => decide (e.2.2.length = w)
     | none => isVarTag e.2.1 && decide (e.2.2.length < 2 ^ 32))

def entriesOKb (es : List Entry) : Bool := es.all entryOKb

/-- Modelled from the spec: `binn_object_set` of the external codec.  It
returns a status instead of mutating when the insertion is rejected: the
container is in open mode (read-only semantics), the key does not fit the
one-byte key-length framing, or the tag/payload pair does not fit the
self-describing framing.  Otherwise it inserts or overwrites the entry. -/
def binnObjectSet (b : BinnState) (key : List Nat) (tag : Nat)
    (payload : List Nat) : Option BinnState :=
  if b.mode = Mode.openedMode then none
  else if 256 ≤ key.length then none
  else if entryOKb (key, tag, payload) then
    some { b with entries := setKey b.entries key (tag, payload) }
  else none

/-- Modelled from the spec: `binn_object_read` of the external codec.  It
scans the encoded key space for the key and reports the stored type tag,
the stored size, and the payload bytes visible from the returned pointer;
an absent key is a null pointer with zeroed type and size. -/
def binnObjectRead (b : BinnState) (key : List Nat) :
    Nat × Nat × Option (List Nat) :=
  match lookupKey b.entries key with
  | none => (0, 0, none)
  | some (t, p) => (t, p.length, some p)

/-! ## Wire encoding (modelled from the spec)

One entry is framed as `keyLength(1) ++ key ++ tag(1) ++ payload` for the
fixed-width tags, with a four-byte little-endian payload length inserted
before the payload for the variable-length tags.  The whole container is
`BINN_OBJECT ++ totalSize(4) ++ entries`, size counted over the whole
buffer — the overall size/type header the spec requires for validation. -/

def encodeEntry (e : Entry) : List Nat :=
  e.1.length :: e.1 ++ e.2.1 ::
    (match fixedTagWidth e.2.1 with
     | some _ => e.2.2
     | none => encodeLE 4 e.2.2.length ++ e.2.2)

def encodeEntries : List Entry → List Nat
  | [] => []
  | e :: es => encodeEntry e ++ encodeEntries es

/-- Modelled from the spec: the container's full encoded byte representation
(`binn_ptr`/`binn_size` of the external codec). -/
def encodeState (b : BinnState) : List Nat :=
  BINN_OBJECT :: encodeLE 4 (5 + (encodeEntries b.entries).length) ++
    encodeEntries b.entries

/-- Parse one entry off the front of the region: the entry and the
unconsumed tail, or `none` when the framing is violated. -/
def parseEntry : List Nat → Option (Entry × List Nat)
  | [] => none
  | kl :: rest =>
    if kl ≤ rest.length then
      let k := rest.take kl
      match rest.drop kl with
      | [] => none
      | tag :: rest2 =>
        match fixedTagWidth tag with
        | some w =>
          if w ≤ rest2.length then
            some ((k, tag, rest2.take w), rest2.drop w)
          else none
        | none =>
          if isVarTag tag then
            if 4 ≤ rest2.length then
              let len := decodeLE (rest2.take 4)
              let rest3 := rest2.drop 4
              if len ≤ rest3.length then
                some ((k, tag, rest3.take len), rest3.drop len)
              else none
            else none
          else none
    else none

/-- Fuel-driven parser for the whole entry region; consumes the region
completely or fails.  Fuel bounds the number of entries; the region's
length suffices. -/
def parseEntries : Nat → List Nat → Option (List Entry)
  | _, [] => some []
  | 0, _ :: _ => none
  | fuel + 1, b :: bs =>
    match parseEntry (b :: bs) with
    | none => none
    | some (e, rest) => (parseEntries fuel rest).map (fun es => e :: es)

/-- Modelled from the spec: `binn_open` of the external codec — validates
that the buffer begins with a structurally coherent container header and
that the declared region parses completely; any malformed, truncated or
empty buffer is rejected. -/
def binnOpen (bytes : List Nat) : Option BinnState :=
  if bytes.headD 0 = BINN_OBJECT then
    if 5 ≤ bytes.length then
      if 5 ≤ decodeLE ((bytes.drop 1).take 4) then
        if decodeLE ((bytes.drop 1).take 4) ≤ bytes.length then
          (parseEntries (decodeLE ((bytes.drop 1).take 4) - 5)
            ((bytes.drop 5).take (decodeLE ((bytes.drop 1).take 4) - 5))).map
            (fun es => ⟨Mode.openedMode, false, es⟩)
        else none
      else none
    else none
  else none

/-! ## The wrapper (embedded from src/binn/src/lib.rs) -/

/-- `BinnObject`: the wrapper's handle on the codec state. -/
abbrev BinnObject := BinnState

/-- `BinnObject::new`: fresh build-mode container; the constructor sets
`disable_int_compression` through the raw struct so declared integer widths
survive serialization exactly. -/
def BinnObject.new : BinnObject := ⟨Mode.build, true, []⟩

/-- `BinnObject::as_bytes`: `binn_ptr` + `binn_size`, exposing the encoded
byte representation. -/
def BinnObject.asBytes (b : BinnObject) : List Nat := encodeState b

/-- One call of `as_bytes` as a state transition: the returned bytes and
the container afterwards (the method takes `&self`; the call leaves the
wrapper state unchanged). -/
def BinnObject.asBytesCall (b : BinnObject) : List Nat × BinnObject :=
  (BinnObject.asBytes b, b)

/-- `BinnValue` (the wrapper's tagged value).  Machine integers are their
bit patterns below `2 ^ w`, floats their IEEE bit patterns, `Str` the
`CStr` content bytes (null-free, terminator not included). -/
inductive BinnValue where
  | Int8 (x : Nat)
  | Int16 (x : Nat)
  | Int32 (x : Nat)
  | Int64 (x : Nat)
  | UInt8 (x : Nat)
  | UInt16 (x : Nat)
  | UInt32 (x : Nat)
  | UInt64 (x : Nat)
  | Float32 (x : Nat)
  | Float64 (x : Nat)
  | Bool (x : Bool)
  | Str (s : List Nat)
  | Object (o : BinnObject)
  deriving DecidableEq, Repr

/-! The thirteen `impl_tryfrom` instances (`TryFrom<BinnValue> for T`): each
succeeds only on the exact variant.  The error `WrongBinnValue` is a
fieldless struct and the wrapper's only use is through `.ok()` in `get_as`,
so the `Result` is collapsed into `Option` directly. -/

def tryFrom_i8 : BinnValue → Option Nat
  | BinnValue.Int8 x => some x
  | _ => none

def tryFrom_i16 : BinnValue → Option Nat
  | BinnValue.Int16 x => some x
  | _ => none

def tryFrom_i32 : BinnValue → Option Nat
  | BinnValue.Int32 x => some x
  | _ => none

def tryFrom_i64 : BinnValue → Option Nat
  | BinnValue.Int64 x => some x
  | _ => none

def tryFrom_u8 : BinnValue → Option Nat
  | BinnValue.UInt8 x => some x
  | _ => none

def tryFrom_u16 : BinnValue → Option Nat
  | BinnValue.UInt16 x => some x
  | _ => none

def tryFrom_u32 : BinnValue → Option Nat
  | BinnValue.UInt32 x => some x
  | _ => none

def tryFrom_u64 : BinnValue → Option Nat
  | BinnValue.UInt64 x => some x
  | _ => none

def tryFrom_f32 : BinnValue → Option Nat
  | BinnValue.Float32 x => some x
  | _ => none

def tryFrom_f64 : BinnValue → Option Nat
  | BinnValue.Float64 x => some x
  | _ => none

def tryFrom_bool : BinnValue → Option Bool
  | BinnValue.Bool x => some x
  | _ => none

def tryFrom_str : BinnValue → Option (List Nat)
  | BinnValue.Str s => some s
  | _ => none

def tryFrom_obj : BinnValue → Option BinnObject
  | BinnValue.Object o => some o
  | _ => none

/-- `BinnObject::set_object`: forwards to the codec's `binn_object_set` and
discards its status (`size` is forwarded for the object arm; the modelled
codec reads sizes off the payload bytes themselves). -/
def BinnObject.setObject (b : BinnObject) (key : List Nat) (ty : Nat)
    (value : List Nat) (_size : Nat) : BinnObject :=
  (binnObjectSet b key ty value).getD b

/-- `BinnObject::set`: dispatches each variant to `set_object` with its tag
and the bytes at `addr(&x)` (the value's little-endian bytes; a `CStr`
pointer exposes the content bytes followed by the null terminator; an
embedded object is serialized with `as_bytes` first, transferring ownership
of its encoded form). -/
def BinnObject.set (b : BinnObject) (key : List Nat) (v : BinnValue) : BinnObject :=
  match v with
  | BinnValue.Int8 x => b.setObject key BINN_INT8 (encodeLE 1 x) 0
  | BinnValue.Int16 x => b.setObject key BINN_INT16 (encodeLE 2 x) 0
  | BinnValue.Int32 x => b.setObject key BINN_INT32 (encodeLE 4 x) 0
  | BinnValue.Int64 x => b.setObject key BINN_INT64 (encodeLE 8 x) 0
  | BinnValue.UInt8 x => b.setObject key BINN_UINT8 (encodeLE 1 x) 0
  | BinnValue.UInt16 x => b.setObject key BINN_UINT16 (encodeLE 2 x) 0
  | BinnValue.UInt32 x => b.setObject key BINN_UINT32 (encodeLE 4 x) 0
  | BinnValue.UInt64 x => b.setObject key BINN_UINT64 (encodeLE 8 x) 0
  | BinnValue.Float32 x => b.setObject key BINN_FLOAT32 (encodeLE 4 x) 0
  | BinnValue.Float64 x => b.setObject key BINN_FLOAT64 (encodeLE 8 x) 0
  | BinnValue.Bool x => b.setObject key BINN_BOOL [if x then 1 else 0] 0
  | BinnValue.Str s => b.setObject key BINN_STRING (s ++ [0]) 0
  | BinnValue.Object o =>
    let bytes := BinnObject.asBytes o
    b.setObject key BINN_OBJECT bytes bytes.length

/-- `CStr::from_ptr`: scans memory from the pointer up to the terminator.
The model's view of that memory is the codec-reported payload window; when
no terminator is present the source keeps scanning adjacent memory
(undefined behavior) — the model then yields the whole window, and theorems
rely only on the presence of a result there, not its contents. -/
def cStrFromPtr (mem : List Nat) : List Nat := mem.takeWhile (fun b => b != 0)

/-- Reinterpretation of the first `w` bytes at the payload pointer as a
little-endian machine integer (`*(pval as *const iN)`); bytes past the end
of the modelled window read as zero (the source would read adjacent memory,
undefined on a short window). -/
def readMem (w : Nat) (mem : List Nat) : Nat := decodeLE (mem.take w)

/-- The match block of `BinnObject::get` on the codec's read result:
`ptype`, `psize`, and the memory at the returned pointer (`none` for a null
pointer).  Each recognized tag reinterprets the payload in place after the
`as_ref()` null check; `psize` is consulted only by the `BINN_OBJECT` arm,
for `slice::from_raw_parts(pval, psize)` followed by `try_into`. -/
def decodeRead (ptype psize : Nat) (pval : Option (List Nat)) : Option BinnValue :=
  if ptype = BINN_INT8 then pval.map (fun m => BinnValue.Int8 (readMem 1 m))
  else if ptype = BINN_INT16 then pval.map (fun m => BinnValue.Int16 (readMem 2 m))
  else if ptype = BINN_INT32 then pval.map (fun m => BinnValue.Int32 (readMem 4 m))
  else if ptype = BINN_INT64 then pval.map (fun m => BinnValue.Int64 (readMem 8 m))
  else if ptype = BINN_UINT8 then pval.map (fun m => BinnValue.UInt8 (readMem 1 m))
  else if ptype = BINN_UINT16 then pval.map (fun m => BinnValue.UInt16 (readMem 2 m))
  else if ptype = BINN_UINT32 then pval.map (fun m => BinnValue.UInt32 (readMem 4 m))
  else if ptype = BINN_UINT64 then pval.map (fun m => BinnValue.UInt64 (readMem 8 m))
  else if ptype = BINN_FLOAT32 then pval.map (fun m => BinnValue.Float32 (readMem 4 m))
  else if ptype = BINN_FLOAT64 then pval.map (fun m => BinnValue.Float64 (readMem 8 m))
  else if ptype = BINN_BOOL then pval.map (fun m => BinnValue.Bool (readMem 1 m != 0))
  else if ptype = BINN_STRING then pval.map (fun m => BinnValue.Str (cStrFromPtr m))
  else if ptype = BINN_OBJECT then
    pval.bind (fun m => (binnOpen (m.take psize)).map BinnValue.Object)
  else none

/-- `BinnObject::get`: reads through the codec (`binn_object_read`) and
reconstructs the matching tagged variant from the raw read result. -/
def BinnObject.get (b : BinnObject) (key : List Nat) : Option BinnValue :=
  let r := binnObjectRead b key
  decodeRead r.1 r.2.1 r.2.2

/-- `TryFrom<&[u8]> for BinnObject`: `binn_open` on the buffer; a null
handle is the distinguished `BinnOpenError`, a fieldless struct collapsed
into `none`. -/
def BinnObject.tryFromSlice (data : List Nat) : Option BinnObject := binnOpen data

/-! The thirteen `get_as::<T>` instantiations: `get` composed with the
typed conversion (`and_then(.. try_into().ok())`). -/

def BinnObject.getAs_i8 (b : BinnObject) (key : List Nat) : Option Nat :=
  (b.get key).bind tryFrom_i8

def BinnObject.getAs_i16 (b : BinnObject) (key : List Nat) : Option Nat :=
  (b.get key).bind tryFrom_i16

def BinnObject.getAs_i32 (b : BinnObject) (key : List Nat) : Option Nat :=
  (b.get key).bind tryFrom_i32

def BinnObject.getAs_i64 (b : BinnObject) (key : List Nat) : Option Nat :=
  (b.get key).bind tryFrom_i64

def BinnObject.getAs_u8 (b : BinnObject) (key : List Nat) : Option Nat :=
  (b.get key).bind tryFrom_u8

def BinnObject.getAs_u16 (b : BinnObject) (key : List Nat) : Option Nat :=
  (b.get key).bind tryFrom_u16

def BinnObject.getAs_u32 (b : BinnObject) (key : List Nat) : Option Nat :=
  (b.get key).bind tryFrom_u32

def BinnObject.getAs_u64 (b : BinnObject) (key : List Nat) : Option Nat :=
  (b.get key).bind tryFrom_u64

def BinnObject.getAs_f32 (b : BinnObject) (key : List Nat) : Option Nat :=
  (b.get key).bind tryFrom_f32

def BinnObject.getAs_f64 (b : BinnObject) (key : List Nat) : Option Nat :=
  (b.get key).bind tryFrom_f64

def BinnObject.getAs_bool (b : BinnObject) (key : List Nat) : Option Bool :=
  (b.get key).bind tryFrom_bool

def BinnObject.getAs_str (b : BinnObject) (key : List Nat) : Option (List Nat) :=
  (b.get key).bind tryFrom_str

def BinnObject.getAs_obj (b : BinnObject) (key : List Nat) : Option BinnObject :=
  (b.get key).bind tryFrom_obj

/-- The wire tag each variant is dispatched to by `set`. -/
def BinnValue.tag : BinnValue → Nat
  | BinnValue.Int8 _ => BINN_INT8
  | BinnValue.Int16 _ => BINN_INT16
  | BinnValue.Int32 _ => BINN_INT32
  | BinnValue.Int64 _ => BINN_INT64
  | BinnValue.UInt8 _ => BINN_UINT8
  | BinnValue.UInt16 _ => BINN_UINT16
  | BinnValue.UInt32 _ => BINN_UINT32
  | BinnValue.UInt64 _ => BINN_UINT64
  | BinnValue.Float32 _ => BINN_FLOAT32
  | BinnValue.Float64 _ => BINN_FLOAT64
  | BinnValue.Bool _ => BINN_BOOL
  | BinnValue.Str _ => BINN_STRING
  | BinnValue.Object _ => BINN_OBJECT

/-- The payload bytes each variant is dispatched with by `set`. -/
def BinnValue.payload : BinnValue → List Nat
  | BinnValue.Int8 x => encodeLE 1 x
  | BinnValue.Int16 x => encodeLE 2 x
  | BinnValue.Int32 x => encodeLE 4 x
  | BinnValue.Int64 x => encodeLE 8 x
  | BinnValue.UInt8 x => encodeLE 1 x
  | BinnValue.UInt16 x => encodeLE 2 x
  | BinnValue.UInt32 x => encodeLE 4 x
  | BinnValue.UInt64 x => encodeLE 8 x
  | BinnValue.Float32 x => encodeLE 4 x
  | BinnValue.Float64 x => encodeLE 8 x
  | BinnValue.Bool x => [if x then 1 else 0]
  | BinnValue.Str s => s ++ [0]
  | BinnValue.Object o => BinnObject.asBytes o

theorem set_eq_setObject (b : BinnObject) (key : List Nat) (v : BinnValue) :
    BinnObject.set b key v =
      (binnObjectSet b key v.tag v.payload).getD b := by
  cases v <;> rfl

/-! ## Helper lemmas -/

theorem take_append_len {α : Type} (l r : List α) (n : Nat) (h : l.length = n) :
    (l ++ r).take n = l := by
  subst h; exact List.take_left l r

theorem drop_append_len {α : Type} (l r : List α) (n : Nat) (h : l.length = n) :
    (l ++ r).drop n = r := by
  subst h; exact List.drop_left l r

theorem lookupKey_setKey_self (es : List Entry) (k : List Nat)
    (v : Nat × List Nat) : lookupKey (setKey es k v) k = some v := by
  induction es with
  | nil => simp [setKey, lookupKey]
  | cons e es ih =>
    obtain ⟨k2, v2⟩ := e
    by_cases h : k2 = k
    · simp [setKey, h, lookupKey]
    · simp [setKey, h, lookupKey, ih]

theorem setKey_setKey (es : List Entry) (k : List Nat)
    (v1 v2 : Nat × List Nat) :
    setKey (setKey es k v1) k v2 = setKey es k v2 := by
  induction es with
  | nil => simp [setKey]
  | cons e es ih =>
    obtain ⟨k2, u⟩ := e
    by_cases h : k2 = k
    · simp [setKey, h]
    · simp [setKey, h, ih]

theorem parseEntry_encodeEntry (e : Entry) (r : List Nat)
    (he : entryOKb e = true) :
    parseEntry (encodeEntry e ++ r) = some (e, r) := by
  obtain ⟨k, t, p⟩ := e
  cases hft : fixedTagWidth t with
  | some w =>
    have hkp : k.length < 256 ∧ p.length = w := by
      simpa only [entryOKb, hft, Bool.and_eq_true, decide_eq_true_eq] using he
    simp only [encodeEntry, hft, List.cons_append, List.append_assoc]
    simp only [parseEntry]
    rw [if_pos (by simp only [List.length_append, List.length_cons]; omega)]
    rw [take_append_len k _ k.length rfl, drop_append_len k _ k.length rfl]
    simp only [hft]
    rw [if_pos (by simp only [List.length_append]; omega)]
    rw [take_append_len p r w hkp.2, drop_append_len p r w hkp.2]
  | none =>
    have hkp : k.length < 256 ∧ (isVarTag t = true ∧ p.length < 2 ^ 32) := by
      simpa only [entryOKb, hft, Bool.and_eq_true, decide_eq_true_eq] using he
    simp only [encodeEntry, hft, List.cons_append, List.append_assoc]
    simp only [parseEntry]
    rw [if_pos (by simp only [List.length_append, List.length_cons]; omega)]
    rw [take_append_len k _ k.length rfl, drop_append_len k _ k.length rfl]
    simp only [hft, hkp.2.1, if_true]
    rw [if_pos (by simp only [List.length_append, encodeLE_length]; omega)]
    rw [take_append_len (encodeLE 4 p.length) _ 4 (encodeLE_length 4 _),
      drop_append_len (encodeLE 4 p.length) _ 4 (encodeLE_length 4 _)]
    rw [decodeLE_encodeLE]
    have hmod : p.length % 256 ^ 4 = p.length :=
      Nat.mod_eq_of_lt (by have : (256 : Nat) ^ 4 = 2 ^ 32 := by norm_num
                           omega)
    rw [hmod]
    rw [if_pos (by simp only [List.length_append]; omega)]
    rw [take_append_len p r p.length rfl, drop_append_len p r p.length rfl]

theorem parseEntries_cons_eq (f : Nat) (b : Nat) (bs : List Nat) :
    parseEntries (f + 1) (b :: bs) =
      match parseEntry (b :: bs) with
      | none => none
      | some (e, rest) => (parseEntries f rest).map (fun es => e :: es) := rfl

theorem parseEntries_encodeEntries (es : List Entry) :
    ∀ fuel, entriesOKb es = true → es.length ≤ fuel →
      parseEntries fuel (encodeEntries es) = some es := by
  induction es with
  | nil => intro fuel _ _; cases fuel <;> rfl
  | cons e es ih =>
    intro fuel hwf hfuel
    have hwf2 : entryOKb e = true ∧ entriesOKb es = true := by
      simpa only [entriesOKb, List.all_cons, Bool.and_eq_true] using hwf
    cases fuel with
    | zero => simp at hfuel
    | succ f =>
      have hf : es.length ≤ f := by
        simp only [List.length_cons] at hfuel; omega
      have hp := parseEntry_encodeEntry e (encodeEntries es) hwf2.1
      have ihres := ih f hwf2.2 hf
      cases hin : encodeEntry e ++ encodeEntries es with
      | nil =>
        obtain ⟨k, t, p⟩ := e
        simp [encodeEntry] at hin
      | cons b bs =>
        show parseEntries (f + 1) (encodeEntry e ++ encodeEntries es) =
          some (e :: es)
        rw [hin, parseEntries_cons_eq, ← hin, hp]
        simp [ihres]

theorem length_le_encodeEntries (es : List Entry) :
    es.length ≤ (encodeEntries es).length := by
  induction es with
  | nil => simp [encodeEntries]
  | cons e es ih =>
    obtain ⟨k, t, p⟩ := e
    simp only [encodeEntries, List.length_append, encodeEntry,
      List.length_cons]
    omega

theorem binnOpen_encodeState (b : BinnState)
    (hwf : entriesOKb b.entries = true)
    (hsize : 5 + (encodeEntries b.entries).length < 2 ^ 32) :
    binnOpen (encodeState b) =
      some ⟨Mode.openedMode, false, b.entries⟩ := by
  obtain ⟨m, c, es⟩ := b
  simp only at hwf hsize
  have hh : ∀ (a : Nat) (l : List Nat), (a :: l).headD 0 = a :=
    fun a l => rfl
  simp only [encodeState, binnOpen, List.cons_append, hh,
    List.drop_succ_cons, List.drop_zero, List.length_cons,
    List.length_append, encodeLE_length, if_true]
  rw [take_append_len (encodeLE 4 _) _ 4 (encodeLE_length 4 _)]
  rw [decodeLE_encodeLE]
  have hmod : (5 + (encodeEntries es).length) % 256 ^ 4 =
      5 + (encodeEntries es).length :=
    Nat.mod_eq_of_lt (by have : (256 : Nat) ^ 4 = 2 ^ 32 := by norm_num
                         omega)
  rw [hmod]
  rw [drop_append_len (encodeLE 4 _) _ 4 (encodeLE_length 4 _)]
  have h5 : 5 + (encodeEntries es).length - 5 = (encodeEntries es).length := by
    omega
  rw [h5, List.take_length]
  rw [if_pos (by omega)]
  rw [if_pos (by omega)]
  rw [if_pos (by omega)]
  rw [parseEntries_encodeEntries es (encodeEntries es).length hwf
    (length_le_encodeEntries es)]
  rfl

theorem binnObjectSet_build (b : BinnState) (k : List Nat) (t : Nat)
    (p : List Nat) (hm : b.mode = Mode.build) (hk : k.length < 256)
    (he : entryOKb (k, t, p) = true) :
    binnObjectSet b k t p =
      some { b with entries := setKey b.entries k (t, p) } := by
  unfold binnObjectSet
  rw [if_neg (by simp [hm]), if_neg (by omega), if_pos he]

theorem entryOKb_val (k : List Nat) (v : BinnValue) (hk : k.length < 256)
    (hp : v.payload.length < 2 ^ 32) :
    entryOKb (k, v.tag, v.payload) = true := by
  cases v <;>
    simp_all [entryOKb, BinnValue.tag, BinnValue.payload, fixedTagWidth,
      isVarTag, encodeLE_length, BINN_BOOL, BINN_UINT8, BINN_INT8,
      BINN_UINT16, BINN_INT16, BINN_UINT32, BINN_INT32, BINN_FLOAT32,
      BINN_UINT64, BINN_INT64, BINN_FLOAT64, BINN_STRING, BINN_OBJECT]

theorem set_build (b : BinnObject) (k : List Nat) (v : BinnValue)
    (hm : b.mode = Mode.build) (hk : k.length < 256)
    (hp : v.payload.length < 2 ^ 32) :
    BinnObject.set b k v =
      { b with entries := setKey b.entries k (v.tag, v.payload) } := by
  rw [set_eq_setObject,
    binnObjectSet_build b k v.tag v.payload hm hk (entryOKb_val k v hk hp)]
  rfl

theorem take_len_encodeLE (w x : Nat) :
    (encodeLE w x).take w = encodeLE w x := by
  have h := List.take_length (encodeLE w x)
  rw [encodeLE_length] at h
  exact h

theorem readMem_encodeLE (w x : Nat) : readMem w (encodeLE w x) = x % 256 ^ w := by
  unfold readMem
  rw [take_len_encodeLE, decodeLE_encodeLE]

theorem encodeEntry_length_le (e : Entry) :
    (encodeEntry e).length ≤ 6 + e.1.length + e.2.2.length := by
  obtain ⟨k, t, p⟩ := e
  cases hft : fixedTagWidth t <;>
    simp [encodeEntry, hft, encodeLE_length, List.length_append] <;> omega

/-- The result of `get` through the codec on any container state. -/
theorem get_entries (b : BinnObject) (k : List Nat) :
    b.get k =
      match lookupKey b.entries k with
      | none => none
      | some (t, p) => decodeRead t p.length (some p) := by
  unfold BinnObject.get binnObjectRead
  cases lookupKey b.entries k with
  | none => rfl
  | some v => rfl

/-- Setting one value on a fresh container and reopening its bytes yields
the opened single-entry state. -/
theorem open_set_new (k : List Nat) (v : BinnValue) (hk : k.length < 256)
    (hp : v.payload.length ≤ 8) :
    binnOpen ((BinnObject.new.set k v).asBytes) =
      some ⟨Mode.openedMode, false, [(k, v.tag, v.payload)]⟩ := by
  have hp32 : v.payload.length < 2 ^ 32 := by omega
  rw [set_build BinnObject.new k v rfl hk hp32]
  have hstate : ({ BinnObject.new with
      entries := setKey BinnObject.new.entries k (v.tag, v.payload) } :
        BinnState) = ⟨Mode.build, true, [(k, v.tag, v.payload)]⟩ := rfl
  rw [hstate]
  have hwf : entriesOKb [(k, v.tag, v.payload)] = true := by
    simp [entriesOKb, entryOKb_val k v hk hp32]
  have hlen := encodeEntry_length_le (k, v.tag, v.payload)
  have hsize : 5 + (encodeEntries [(k, v.tag, v.payload)]).length < 2 ^ 32 := by
    simp only [encodeEntries, List.append_nil] at *
    omega
  exact binnOpen_encodeState ⟨Mode.build, true, [(k, v.tag, v.payload)]⟩ hwf hsize

set_option maxHeartbeats 1000000 in
/-- After a successful `set`, whatever `get` returns at that key carries
the tag of the value just stored. -/
theorem get_set_tag (b : BinnObject) (k : List Nat) (v : BinnValue)
    (hm : b.mode = Mode.build) (hk : k.length < 256)
    (hp : v.payload.length < 2 ^ 32) :
    ∀ w, (BinnObject.set b k v).get k = some w → w.tag = v.tag := by
  intro w hw
  rw [set_build b k v hm hk hp, get_entries] at hw
  simp only [lookupKey_setKey_self] at hw
  cases v
  case Object o =>
    simp only [decodeRead, BinnValue.tag, BinnValue.payload, BINN_BOOL,
      BINN_UINT8, BINN_INT8, BINN_UINT16, BINN_INT16, BINN_UINT32,
      BINN_INT32, BINN_FLOAT32, BINN_UINT64, BINN_INT64, BINN_FLOAT64,
      BINN_STRING, BINN_OBJECT, Option.some_bind, Nat.reduceEqDiff,
      reduceIte] at hw
    obtain ⟨o2, ho2, rfl⟩ := Option.map_eq_some'.mp hw
    rfl
  all_goals
    simp only [decodeRead, BinnValue.tag, BinnValue.payload, BINN_BOOL,
      BINN_UINT8, BINN_INT8, BINN_UINT16, BINN_INT16, BINN_UINT32,
      BINN_INT32, BINN_FLOAT32, BINN_UINT64, BINN_INT64, BINN_FLOAT64,
      BINN_STRING, BINN_OBJECT, Option.map_some', Option.some.injEq,
      Nat.reduceEqDiff, reduceIte] at hw
  all_goals subst hw
  all_goals rfl

/-- The `get_as` accessor matching a value's own variant yields `none` on
container `b` at `key`; used to state that the overwritten first value's
typed accessor fails after a second `set` of a different type. -/
def accessorOfIsNone (v : BinnValue) (b : BinnObject) (key : List Nat) : Prop :=
  match v with
  | BinnValue.Int8 _ => b.getAs_i8 key = none
  | BinnValue.Int16 _ => b.getAs_i16 key = none
  | BinnValue.Int32 _ => b.getAs_i32 key = none
  | BinnValue.Int64 _ => b.getAs_i64 key = none
  | BinnValue.UInt8 _ => b.getAs_u8 key = none
  | BinnValue.UInt16 _ => b.getAs_u16 key = none
  | BinnValue.UInt32 _ => b.getAs_u32 key = none
  | BinnValue.UInt64 _ => b.getAs_u64 key = none
  | BinnValue.Float32 _ => b.getAs_f32 key = none
  | BinnValue.Float64 _ => b.getAs_f64 key = none
  | BinnValue.Bool _ => b.getAs_bool key = none
  | BinnValue.Str _ => b.getAs_str key = none
  | BinnValue.Object _ => b.getAs_obj key = none

/-- If everything `get` can return at `key` has a tag different from `v`'s,
then the accessor of `v`'s own type yields `none` there. -/
theorem accessorOfIsNone_of_tag (v : BinnValue) (b : BinnObject)
    (key : List Nat) (h : ∀ w, b.get key = some w → w.tag ≠ v.tag) :
    accessorOfIsNone v b key := by
  cases hg : b.get key with
  | none =>
    cases v <;>
      simp only [accessorOfIsNone, BinnObject.getAs_i8, BinnObject.getAs_i16,
        BinnObject.getAs_i32, BinnObject.getAs_i64, BinnObject.getAs_u8,
        BinnObject.getAs_u16, BinnObject.getAs_u32, BinnObject.getAs_u64,
        BinnObject.getAs_f32, BinnObject.getAs_f64, BinnObject.getAs_bool,
        BinnObject.getAs_str, BinnObject.getAs_obj, hg, Option.none_bind]
  | some w =>
    have hw := h w hg
    cases v <;>
      simp only [accessorOfIsNone, BinnObject.getAs_i8, BinnObject.getAs_i16,
        BinnObject.getAs_i32, BinnObject.getAs_i64, BinnObject.getAs_u8,
        BinnObject.getAs_u16, BinnObject.getAs_u32, BinnObject.getAs_u64,
        BinnObject.getAs_f32, BinnObject.getAs_f64, BinnObject.getAs_bool,
        BinnObject.getAs_str, BinnObject.getAs_obj, hg, Option.some_bind] <;>
      cases w <;>
        first
        | exact absurd rfl hw
        | rfl

theorem decodeLE_lt (bs : List Nat) (hb : ∀ x ∈ bs, x < 256) :
    decodeLE bs < 256 ^ bs.length := by
  induction bs with
  | nil => simp [decodeLE]
  | cons b bs ih =>
    have hb1 : b < 256 := hb b (by simp)
    have ih2 := ih (fun x hx => hb x (by simp [hx]))
    have hpos : 0 < (256 : Nat) ^ bs.length := pow_pos (by norm_num) _
    simp only [decodeLE, List.length_cons]
    rw [pow_succ']
    omega

theorem parseEntry_sound (bs : List Nat) (e : Entry) (rest : List Nat)
    (hb : ∀ x ∈ bs, x < 256) (h : parseEntry bs = some (e, rest)) :
    entryOKb e = true ∧ (∀ x ∈ rest, x < 256) := by
  cases bs with
  | nil => simp [parseEntry] at h
  | cons kl r =>
    have hkl : kl < 256 := hb kl (by simp)
    have hr : ∀ x ∈ r, x < 256 := fun x hx => hb x (by simp [hx])
    simp only [parseEntry] at h
    by_cases h1 : kl ≤ r.length
    case neg => rw [if_neg h1] at h; exact absurd h (by simp)
    rw [if_pos h1] at h
    cases hd : r.drop kl with
    | nil => rw [hd] at h; exact absurd h (by simp)
    | cons tag rest2 =>
      rw [hd] at h
      simp only [] at h
      have hrest2 : ∀ x ∈ rest2, x < 256 := by
        intro x hx
        have hxd : x ∈ r.drop kl := by rw [hd]; simp [hx]
        exact hr x (List.drop_subset _ _ hxd)
      cases hft : fixedTagWidth tag with
      | some w =>
        rw [hft] at h
        simp only [] at h
        by_cases h2 : w ≤ rest2.length
        case neg => rw [if_neg h2] at h; exact absurd h (by simp)
        rw [if_pos h2] at h
        simp only [Option.some.injEq, Prod.mk.injEq] at h
        obtain ⟨rfl, rfl⟩ := h
        constructor
        · simp only [entryOKb, hft, Bool.and_eq_true, decide_eq_true_eq]
          constructor
          · rw [List.length_take]; omega
          · rw [List.length_take]; omega
        · intro x hx
          exact hrest2 x (List.drop_subset _ _ hx)
      | none =>
        rw [hft] at h
        simp only [] at h
        by_cases hv : isVarTag tag = true
        case neg => rw [if_neg hv] at h; exact absurd h (by simp)
        rw [if_pos hv] at h
        by_cases h3 : 4 ≤ rest2.length
        case neg => rw [if_neg h3] at h; exact absurd h (by simp)
        rw [if_pos h3] at h
        by_cases h4 : decodeLE (rest2.take 4) ≤ (rest2.drop 4).length
        case neg => rw [if_neg h4] at h; exact absurd h (by simp)
        rw [if_pos h4] at h
        simp only [Option.some.injEq, Prod.mk.injEq] at h
        obtain ⟨rfl, rfl⟩ := h
        have hlen4 : (rest2.take 4).length = 4 := by
          rw [List.length_take]; omega
        have hdec : decodeLE (rest2.take 4) < 2 ^ 32 := by
          have hlt := decodeLE_lt (rest2.take 4)
            (fun x hx => hrest2 x (List.take_subset _ _ hx))
          rw [hlen4] at hlt
          have h2564 : (256 : Nat) ^ 4 = 2 ^ 32 := by norm_num
          omega
        constructor
        · simp only [entryOKb, hft, Bool.and_eq_true, decide_eq_true_eq, hv,
            true_and]
          constructor
          · rw [List.length_take]; omega
          · rw [List.length_take]; omega
        · intro x hx
          exact hrest2 x (List.drop_subset _ _
            (List.drop_subset _ _ hx))

theorem parseEntries_sound :
    ∀ (fuel : Nat) (bs : List Nat) (es : List Entry),
      (∀ x ∈ bs, x < 256) → parseEntries fuel bs = some es →
      entriesOKb es = true := by
  intro fuel
  induction fuel with
  | zero =>
    intro bs es hb h
    cases bs with
    | nil =>
      simp only [parseEntries, Option.some.injEq] at h
      subst h
      rfl
    | cons b bs2 => simp [parseEntries] at h
  | succ f ih =>
    intro bs es hb h
    cases bs with
    | nil =>
      simp only [parseEntries, Option.some.injEq] at h
      subst h
      rfl
    | cons b bs2 =>
      rw [parseEntries_cons_eq] at h
      cases hpe : parseEntry (b :: bs2) with
      | none => rw [hpe] at h; exact absurd h (by simp)
      | some pr =>
        obtain ⟨e, rest⟩ := pr
        rw [hpe] at h
        simp only [Option.map_eq_some'] at h
        obtain ⟨es2, hes2, rfl⟩ := h
        have hs := parseEntry_sound (b :: bs2) e rest hb hpe
        have ht := ih rest es2 hs.2 hes2
        simp only [entriesOKb, List.all_cons, Bool.and_eq_true]
        exact ⟨hs.1, ht⟩

theorem encodeState_length (b : BinnState) :
    (encodeState b).length = 5 + (encodeEntries b.entries).length := by
  simp only [encodeState, List.cons_append, List.length_cons,
    List.length_append, encodeLE_length]
  omega

/-! ## Claim theorems -/

/-- C9: for every container, two calls to `as_bytes` with no intervening
mutation return the same byte sequence — the second call, made on the state
the first call left behind, yields the same bytes. -/
theorem claim_C9_asBytes_stable (b : BinnObject) :
    (BinnObject.asBytesCall b).1 =
      (BinnObject.asBytesCall (BinnObject.asBytesCall b).2).1 := rfl

/-- Witness for C9 on a concrete container. -/
theorem claim_C9_witness :
    (BinnObject.asBytesCall ⟨Mode.build, true, [([107], BINN_INT8, [5])]⟩).1 =
      (BinnObject.asBytesCall
        (BinnObject.asBytesCall
          ⟨Mode.build, true, [([107], BINN_INT8, [5])]⟩).2).1 :=
  claim_C9_asBytes_stable ⟨Mode.build, true, [([107], BINN_INT8, [5])]⟩

/-- C10: `set` returns unit and exposes no failure to the caller —
`set_object` discards the codec's status, and when the codec rejects the
insertion the container's observable contents are exactly what they were
before the call. -/
theorem claim_C10_set_silent (b : BinnObject) (k : List Nat) (v : BinnValue)
    (h : binnObjectSet b k v.tag v.payload = none) :
    BinnObject.set b k v = b := by
  rw [set_eq_setObject, h]
  rfl

/-- Witness for C10 at a concrete rejected insertion: a `set` on an opened
(read-only) container completes silently and leaves the state unchanged. -/
theorem claim_C10_witness :
    binnObjectSet ⟨Mode.openedMode, false, []⟩ [107] (BinnValue.Int8 1).tag
        (BinnValue.Int8 1).payload = none ∧
      BinnObject.set ⟨Mode.openedMode, false, []⟩ [107] (BinnValue.Int8 1) =
        (⟨Mode.openedMode, false, []⟩ : BinnObject) :=
  ⟨rfl, claim_C10_set_silent ⟨Mode.openedMode, false, []⟩ [107]
    (BinnValue.Int8 1) rfl⟩

/-- C8: building an inner container holding 42 (as i8) under key "val",
embedding it under key "obj" in an outer container (the inner container is
serialized to bytes at `set` time), serializing and reopening the outer
container, then reading the nested container at "obj" and its i8 field
"val" yields Some 42. -/
theorem claim_C8_nested_roundtrip :
    (binnOpen ((BinnObject.set BinnObject.new [111, 98, 106]
          (BinnValue.Object (BinnObject.set BinnObject.new [118, 97, 108]
            (BinnValue.Int8 42)))).asBytes)).bind
        (fun outer => (BinnObject.getAs_obj outer [111, 98, 106]).bind
          (fun inner => BinnObject.getAs_i8 inner [118, 97, 108])) =
      some 42 := by
  decide

/-- C5 counterexample: the claim says a fixed-width scalar payload is
reinterpreted only subject to a check that the payload is at least as large
as the target type, so a reported size of 1 under the int16 tag would have
to yield `none`; the decode step of `get` instead ignores the reported size
and reads the two bytes at the pointer. -/
theorem claim_C5_counterexample :
    decodeRead BINN_INT16 1 (some [5, 7]) = some (BinnValue.Int16 1797) := by
  decide

set_option maxHeartbeats 2000000 in
/-- C5 amended: when `get` matches a fixed-width scalar tag, the payload
pointer is dereferenced subject only to the `as_ref()` null check — the
codec-reported payload size is never compared against the target width (it
is consulted only by the container arm), so `none` arises exactly from a
failed codec read, and any non-null payload (in particular one at least as
wide as the target) is reinterpreted regardless of the reported size. -/
theorem claim_C5_amended (t w : Nat) (hft : fixedTagWidth t = some w) :
    (∀ s1 s2 m, decodeRead t s1 m = decodeRead t s2 m) ∧
    (∀ s, decodeRead t s none = none) ∧
    (∀ s mem, w ≤ mem.length → (decodeRead t s (some mem)).isSome = true) := by
  unfold fixedTagWidth at hft
  split_ifs at hft <;>
    (subst_vars
     refine ⟨fun s1 s2 m => ?_, fun s => ?_, fun s mem hw => ?_⟩ <;>
       simp only [decodeRead, BINN_BOOL, BINN_UINT8, BINN_INT8,
         BINN_UINT16, BINN_INT16, BINN_UINT32, BINN_INT32, BINN_FLOAT32,
         BINN_UINT64, BINN_INT64, BINN_FLOAT64, BINN_STRING, BINN_OBJECT,
         Nat.reduceEqDiff, reduceIte, Option.map_none', Option.map_some',
         Option.isSome_some])

/-- Witness for C5 amended at the int16 tag. -/
theorem claim_C5_amended_witness :
    fixedTagWidth BINN_INT16 = some 2 ∧
    decodeRead BINN_INT16 1 (some [5, 7]) =
      decodeRead BINN_INT16 2 (some [5, 7]) ∧
    decodeRead BINN_INT16 1 none = none ∧
    (decodeRead BINN_INT16 2 (some [5, 7])).isSome = true :=
  ⟨by decide,
   (claim_C5_amended BINN_INT16 2 (by decide)).1 1 2 (some [5, 7]),
   (claim_C5_amended BINN_INT16 2 (by decide)).2.1 1,
   (claim_C5_amended BINN_INT16 2 (by decide)).2.2 2 [5, 7] (by decide)⟩

/-- C6 counterexample: the claim says `get` degrades to `none` when the
stored text bytes are not validly null-terminated; on a crafted buffer
whose string payload [65, 66] carries no terminator, `get` returns `some`
anyway (the `CStr` is scanned from the pointer; no validation occurs). -/
theorem claim_C6_counterexample :
    (binnOpen [226, 14, 0, 0, 0, 1, 107, 160, 2, 0, 0, 0, 65, 66]).bind
        (fun c => BinnObject.get c [107]) =
      some (BinnValue.Str [65, 66]) := by
  decide

/-- C6 amended: the text arm of `get` returns `none` only when the codec's
read fails (null pointer); for any stored entry under the text tag it
returns `some` of the bytes scanned from the payload pointer up to the
first null byte wherever that lies — no validation of null-termination is
performed (for an unterminated payload the source scans past the stored
bytes, which the model truncates at the visible window). -/
theorem claim_C6_amended (b : BinnObject) (k : List Nat) (p : List Nat)
    (h : lookupKey b.entries k = some (BINN_STRING, p)) :
    b.get k = some (BinnValue.Str (p.takeWhile (fun x => x != 0))) ∧
    (∀ s, decodeRead BINN_STRING s none = none) := by
  constructor
  · rw [get_entries, h]
    rfl
  · intro s
    rfl

/-- Witness for C6 amended on a concrete unterminated stored payload. -/
theorem claim_C6_amended_witness :
    BinnObject.get
        ⟨Mode.openedMode, false, [([107], BINN_STRING, [65, 66])]⟩ [107] =
      some (BinnValue.Str (List.takeWhile (fun x => x != 0) [65, 66])) ∧
    decodeRead BINN_STRING 2 none = none :=
  ⟨(claim_C6_amended ⟨Mode.openedMode, false, [([107], BINN_STRING, [65, 66])]⟩
      [107] [65, 66] rfl).1,
   (claim_C6_amended ⟨Mode.openedMode, false, [([107], BINN_STRING, [65, 66])]⟩
      [107] [65, 66] rfl).2 2⟩

/-- Any buffer shorter than the five-byte header is rejected by the
modelled `binn_open`. -/
theorem binnOpen_none_of_short (bs : List Nat) (h : bs.length < 5) :
    binnOpen bs = none := by
  unfold binnOpen
  split_ifs <;> first | rfl | omega

/-- A buffer whose declared size exceeds the available bytes is rejected
by the modelled `binn_open`. -/
theorem binnOpen_none_of_big_size (bs : List Nat)
    (h : bs.length < decodeLE ((bs.drop 1).take 4)) :
    binnOpen bs = none := by
  unfold binnOpen
  split_ifs <;> first | rfl | omega

set_option maxHeartbeats 1000000 in
/-- C4: opening a malformed, truncated, or empty buffer returns the
distinguished open-failure and never yields a partially initialized
container: the empty buffer fails, any buffer shorter than the five-byte
header fails, every strict prefix of a valid encoding fails (truncation),
and a successful open of genuine byte input always yields a fully
validated open-mode container whose entries all satisfy the framing
invariant.  The modelled `binn_open` is a total function of the byte
list, so no access outside the given buffer occurs for any length from
zero upward. -/
theorem claim_C4_open_failures :
    BinnObject.tryFromSlice [] = none ∧
    (∀ bytes : List Nat, bytes.length < 5 →
      BinnObject.tryFromSlice bytes = none) ∧
    (∀ b : BinnState, entriesOKb b.entries = true →
      5 + (encodeEntries b.entries).length < 2 ^ 32 →
      ∀ n, n < (encodeState b).length →
        BinnObject.tryFromSlice ((encodeState b).take n) = none) ∧
    (∀ (bytes : List Nat) (c : BinnState), (∀ x ∈ bytes, x < 256) →
      BinnObject.tryFromSlice bytes = some c →
      c.mode = Mode.openedMode ∧ entriesOKb c.entries = true) := by
  refine ⟨rfl, ?_, ?_, ?_⟩
  · intro bytes hlen
    unfold BinnObject.tryFromSlice
    exact binnOpen_none_of_short bytes hlen
  · intro b hwf hsize n hn
    have hshape : encodeState b =
        BINN_OBJECT :: (encodeLE 4 (5 + (encodeEntries b.entries).length) ++
          encodeEntries b.entries) := by
      simp [encodeState, List.cons_append]
    rw [encodeState_length] at hn
    unfold BinnObject.tryFromSlice
    cases n with
    | zero => rfl
    | succ m =>
      by_cases hshort : m + 1 < 5
      · apply binnOpen_none_of_short
        rw [List.length_take, encodeState_length]
        omega
      · apply binnOpen_none_of_big_size
        rw [hshape, List.take_succ_cons]
        have hmin4 : min 4 m = 4 := by omega
        simp only [List.drop_succ_cons, List.drop_zero, List.length_cons,
          List.take_take, List.length_take, List.length_append,
          encodeLE_length, hmin4]
        rw [take_append_len (encodeLE 4 _) _ 4 (encodeLE_length 4 _)]
        rw [decodeLE_encodeLE]
        have hmod : (5 + (encodeEntries b.entries).length) % 256 ^ 4 =
            5 + (encodeEntries b.entries).length :=
          Nat.mod_eq_of_lt
            (by have h4 : (256 : Nat) ^ 4 = 2 ^ 32 := by norm_num
                omega)
        rw [hmod]
        omega
  · intro bytes c hb h
    unfold BinnObject.tryFromSlice at h
    simp only [binnOpen] at h
    by_cases h1 : bytes.headD 0 = BINN_OBJECT
    case neg => rw [if_neg h1] at h; exact absurd h (by simp)
    rw [if_pos h1] at h
    by_cases h2 : 5 ≤ bytes.length
    case neg => rw [if_neg h2] at h; exact absurd h (by simp)
    rw [if_pos h2] at h
    by_cases h3 : 5 ≤ decodeLE ((bytes.drop 1).take 4)
    case neg => rw [if_neg h3] at h; exact absurd h (by simp)
    rw [if_pos h3] at h
    by_cases h4 : decodeLE ((bytes.drop 1).take 4) ≤ bytes.length
    case neg => rw [if_neg h4] at h; exact absurd h (by simp)
    rw [if_pos h4] at h
    simp only [Option.map_eq_some'] at h
    obtain ⟨es, hes, rfl⟩ := h
    refine ⟨rfl, parseEntries_sound _ _ es ?_ hes⟩
    intro x hx
    exact hb x (List.drop_subset _ _ (List.take_subset _ _ hx))

/-- Witness for C4: a one-byte buffer fails, the truncation of a concrete
valid encoding at length 7 fails, and opening a concrete valid buffer
succeeds in open mode with validated entries. -/
theorem claim_C4_witness :
    BinnObject.tryFromSlice [226] = none ∧
    BinnObject.tryFromSlice
      ((encodeState ⟨Mode.build, true, [([107], BINN_INT8, [5])]⟩).take 7) =
        none ∧
    (∀ c, BinnObject.tryFromSlice [226, 9, 0, 0, 0, 1, 107, 33, 5] = some c →
      c.mode = Mode.openedMode ∧ entriesOKb c.entries = true) :=
  ⟨claim_C4_open_failures.2.1 [226] (by decide),
   claim_C4_open_failures.2.2.1 ⟨Mode.build, true, [([107], BINN_INT8, [5])]⟩
     (by decide) (by decide) 7 (by decide),
   fun c hc => claim_C4_open_failures.2.2.2 [226, 9, 0, 0, 0, 1, 107, 33, 5] c
     (by decide) hc⟩

set_option maxHeartbeats 2000000 in
/-- C1: for every supported scalar type and every value of it (machine
integers and floats by their bit patterns), building a fresh container,
inserting the value under key "k" with `set`, serializing with `as_bytes`,
re-opening those bytes as a new container, and calling the matching
`get_as` on it returns `Some` of the original value. -/
theorem claim_C1_scalar_roundtrip :
    (∀ x : Nat, x < 2 ^ 8 →
      (binnOpen ((BinnObject.set BinnObject.new [107]
          (BinnValue.Int8 x)).asBytes)).bind
        (fun c => BinnObject.getAs_i8 c [107]) = some x) ∧
    (∀ x : Nat, x < 2 ^ 16 →
      (binnOpen ((BinnObject.set BinnObject.new [107]
          (BinnValue.Int16 x)).asBytes)).bind
        (fun c => BinnObject.getAs_i16 c [107]) = some x) ∧
    (∀ x : Nat, x < 2 ^ 32 →
      (binnOpen ((BinnObject.set BinnObject.new [107]
          (BinnValue.Int32 x)).asBytes)).bind
        (fun c => BinnObject.getAs_i32 c [107]) = some x) ∧
    (∀ x : Nat, x < 2 ^ 64 →
      (binnOpen ((BinnObject.set BinnObject.new [107]
          (BinnValue.Int64 x)).asBytes)).bind
        (fun c => BinnObject.getAs_i64 c [107]) = some x) ∧
    (∀ x : Nat, x < 2 ^ 8 →
      (binnOpen ((BinnObject.set BinnObject.new [107]
          (BinnValue.UInt8 x)).asBytes)).bind
        (fun c => BinnObject.getAs_u8 c [107]) = some x) ∧
    (∀ x : Nat, x < 2 ^ 16 →
      (binnOpen ((BinnObject.set BinnObject.new [107]
          (BinnValue.UInt16 x)).asBytes)).bind
        (fun c => BinnObject.getAs_u16 c [107]) = some x) ∧
    (∀ x : Nat, x < 2 ^ 32 →
      (binnOpen ((BinnObject.set BinnObject.new [107]
          (BinnValue.UInt32 x)).asBytes)).bind
        (fun c => BinnObject.getAs_u32 c [107]) = some x) ∧
    (∀ x : Nat, x < 2 ^ 64 →
      (binnOpen ((BinnObject.set BinnObject.new [107]
          (BinnValue.UInt64 x)).asBytes)).bind
        (fun c => BinnObject.getAs_u64 c [107]) = some x) ∧
    (∀ x : Nat, x < 2 ^ 32 →
      (binnOpen ((BinnObject.set BinnObject.new [107]
          (BinnValue.Float32 x)).asBytes)).bind
        (fun c => BinnObject.getAs_f32 c [107]) = some x) ∧
    (∀ x : Nat, x < 2 ^ 64 →
      (binnOpen ((BinnObject.set BinnObject.new [107]
          (BinnValue.Float64 x)).asBytes)).bind
        (fun c => BinnObject.getAs_f64 c [107]) = some x) ∧
    (∀ x : Bool,
      (binnOpen ((BinnObject.set BinnObject.new [107]
          (BinnValue.Bool x)).asBytes)).bind
        (fun c => BinnObject.getAs_bool c [107]) = some x) := by
  refine ⟨?_, ?_, ?_, ?_, ?_, ?_, ?_, ?_, ?_, ?_, ?_⟩
  · intro x hx
    rw [open_set_new [107] (BinnValue.Int8 x) (by norm_num)
      (by simp [BinnValue.payload, encodeLE_length])]
    simp only [Option.some_bind, BinnObject.getAs_i8,
      BinnObject.getAs_i16, BinnObject.getAs_i32, BinnObject.getAs_i64,
      BinnObject.getAs_u8, BinnObject.getAs_u16, BinnObject.getAs_u32,
      BinnObject.getAs_u64, BinnObject.getAs_f32, BinnObject.getAs_f64,
      get_entries, lookupKey, BinnValue.tag, BinnValue.payload, decodeRead,
      BINN_BOOL, BINN_UINT8, BINN_INT8, BINN_UINT16, BINN_INT16,
      BINN_UINT32, BINN_INT32, BINN_FLOAT32, BINN_UINT64, BINN_INT64,
      BINN_FLOAT64, BINN_STRING, BINN_OBJECT, Nat.reduceEqDiff, reduceIte,
      if_true, Option.map_some', readMem_encodeLE, tryFrom_i8, tryFrom_i16,
      tryFrom_i32, tryFrom_i64, tryFrom_u8, tryFrom_u16, tryFrom_u32,
      tryFrom_u64, tryFrom_f32, tryFrom_f64, Option.some.injEq]
    exact Nat.mod_eq_of_lt (by norm_num at hx ⊢; omega)
  · intro x hx
    rw [open_set_new [107] (BinnValue.Int16 x) (by norm_num)
      (by simp [BinnValue.payload, encodeLE_length])]
    simp only [Option.some_bind, BinnObject.getAs_i8,
      BinnObject.getAs_i16, BinnObject.getAs_i32, BinnObject.getAs_i64,
      BinnObject.getAs_u8, BinnObject.getAs_u16, BinnObject.getAs_u32,
      BinnObject.getAs_u64, BinnObject.getAs_f32, BinnObject.getAs_f64,
      get_entries, lookupKey, BinnValue.tag, BinnValue.payload, decodeRead,
      BINN_BOOL, BINN_UINT8, BINN_INT8, BINN_UINT16, BINN_INT16,
      BINN_UINT32, BINN_INT32, BINN_FLOAT32, BINN_UINT64, BINN_INT64,
      BINN_FLOAT64, BINN_STRING, BINN_OBJECT, Nat.reduceEqDiff, reduceIte,
      if_true, Option.map_some', readMem_encodeLE, tryFrom_i8, tryFrom_i16,
      tryFrom_i32, tryFrom_i64, tryFrom_u8, tryFrom_u16, tryFrom_u32,
      tryFrom_u64, tryFrom_f32, tryFrom_f64, Option.some.injEq]
    exact Nat.mod_eq_of_lt (by norm_num at hx ⊢; omega)
  · intro x hx
    rw [open_set_new [107] (BinnValue.Int32 x) (by norm_num)
      (by simp [BinnValue.payload, encodeLE_length])]
    simp only [Option.some_bind, BinnObject.getAs_i8,
      BinnObject.getAs_i16, BinnObject.getAs_i32, BinnObject.getAs_i64,
      BinnObject.getAs_u8, BinnObject.getAs_u16, BinnObject.getAs_u32,
      BinnObject.getAs_u64, BinnObject.getAs_f32, BinnObject.getAs_f64,
      get_entries, lookupKey, BinnValue.tag, BinnValue.payload, decodeRead,
      BINN_BOOL, BINN_UINT8, BINN_INT8, BINN_UINT16, BINN_INT16,
      BINN_UINT32, BINN_INT32, BINN_FLOAT32, BINN_UINT64, BINN_INT64,
      BINN_FLOAT64, BINN_STRING, BINN_OBJECT, Nat.reduceEqDiff, reduceIte,
      if_true, Option.map_some', readMem_encodeLE, tryFrom_i8, tryFrom_i16,
      tryFrom_i32, tryFrom_i64, tryFrom_u8, tryFrom_u16, tryFrom_u32,
      tryFrom_u64, tryFrom_f32, tryFrom_f64, Option.some.injEq]
    exact Nat.mod_eq_of_lt (by norm_num at hx ⊢; omega)
  · intro x hx
    rw [open_set_new [107] (BinnValue.Int64 x) (by norm_num)
      (by simp [BinnValue.payload, encodeLE_length])]
    simp only [Option.some_bind, BinnObject.getAs_i8,
      BinnObject.getAs_i16, BinnObject.getAs_i32, BinnObject.getAs_i64,
      BinnObject.getAs_u8, BinnObject.getAs_u16, BinnObject.getAs_u32,
      BinnObject.getAs_u64, BinnObject.getAs_f32, BinnObject.getAs_f64,
      get_entries, lookupKey, BinnValue.tag, BinnValue.payload, decodeRead,
      BINN_BOOL, BINN_UINT8, BINN_INT8, BINN_UINT16, BINN_INT16,
      BINN_UINT32, BINN_INT32, BINN_FLOAT32, BINN_UINT64, BINN_INT64,
      BINN_FLOAT64, BINN_STRING, BINN_OBJECT, Nat.reduceEqDiff, reduceIte,
      if_true, Option.map_some', readMem_encodeLE, tryFrom_i8, tryFrom_i16,
      tryFrom_i32, tryFrom_i64, tryFrom_u8, tryFrom_u16, tryFrom_u32,
      tryFrom_u64, tryFrom_f32, tryFrom_f64, Option.some.injEq]
    exact Nat.mod_eq_of_lt (by norm_num at hx ⊢; omega)
  · intro x hx
    rw [open_set_new [107] (BinnValue.UInt8 x) (by norm_num)
      (by simp [BinnValue.payload, encodeLE_length])]
    simp only [Option.some_bind, BinnObject.getAs_i8,
      BinnObject.getAs_i16, BinnObject.getAs_i32, BinnObject.getAs_i64,
      BinnObject.getAs_u8, BinnObject.getAs_u16, BinnObject.getAs_u32,
      BinnObject.getAs_u64, BinnObject.getAs_f32, BinnObject.getAs_f64,
      get_entries, lookupKey, BinnValue.tag, BinnValue.payload, decodeRead,
      BINN_BOOL, BINN_UINT8, BINN_INT8, BINN_UINT16, BINN_INT16,
      BINN_UINT32, BINN_INT32, BINN_FLOAT32, BINN_UINT64, BINN_INT64,
      BINN_FLOAT64, BINN_STRING, BINN_OBJECT, Nat.reduceEqDiff, reduceIte,
      if_true, Option.map_some', readMem_encodeLE, tryFrom_i8, tryFrom_i16,
      tryFrom_i32, tryFrom_i64, tryFrom_u8, tryFrom_u16, tryFrom_u32,
      tryFrom_u64, tryFrom_f32, tryFrom_f64, Option.some.injEq]
    exact Nat.mod_eq_of_lt (by norm_num at hx ⊢; omega)
  · intro x hx
    rw [open_set_new [107] (BinnValue.UInt16 x) (by norm_num)
      (by simp [BinnValue.payload, encodeLE_length])]
    simp only [Option.some_bind, BinnObject.getAs_i8,
      BinnObject.getAs_i16, BinnObject.getAs_i32, BinnObject.getAs_i64,
      BinnObject.getAs_u8, BinnObject.getAs_u16, BinnObject.getAs_u32,
      BinnObject.getAs_u64, BinnObject.getAs_f32, BinnObject.getAs_f64,
      get_entries, lookupKey, BinnValue.tag, BinnValue.payload, decodeRead,
      BINN_BOOL, BINN_UINT8, BINN_INT8, BINN_UINT16, BINN_INT16,
      BINN_UINT32, BINN_INT32, BINN_FLOAT32, BINN_UINT64, BINN_INT64,
      BINN_FLOAT64, BINN_STRING, BINN_OBJECT, Nat.reduceEqDiff, reduceIte,
      if_true, Option.map_some', readMem_encodeLE, tryFrom_i8, tryFrom_i16,
      tryFrom_i32, tryFrom_i64, tryFrom_u8, tryFrom_u16, tryFrom_u32,
      tryFrom_u64, tryFrom_f32, tryFrom_f64, Option.some.injEq]
    exact Nat.mod_eq_of_lt (by norm_num at hx ⊢; omega)
  · intro x hx
    rw [open_set_new [107] (BinnValue.UInt32 x) (by norm_num)
      (by simp [BinnValue.payload, encodeLE_length])]
    simp only [Option.some_bind, BinnObject.getAs_i8,
      BinnObject.getAs_i16, BinnObject.getAs_i32, BinnObject.getAs_i64,
      BinnObject.getAs_u8, BinnObject.getAs_u16, BinnObject.getAs_u32,
      BinnObject.getAs_u64, BinnObject.getAs_f32, BinnObject.getAs_f64,
      get_entries, lookupKey, BinnValue.tag, BinnValue.payload, decodeRead,
      BINN_BOOL, BINN_UINT8, BINN_INT8, BINN_UINT16, BINN_INT16,
      BINN_UINT32, BINN_INT32, BINN_FLOAT32, BINN_UINT64, BINN_INT64,
      BINN_FLOAT64, BINN_STRING, BINN_OBJECT, Nat.reduceEqDiff, reduceIte,
      if_true, Option.map_some', readMem_encodeLE, tryFrom_i8, tryFrom_i16,
      tryFrom_i32, tryFrom_i64, tryFrom_u8, tryFrom_u16, tryFrom_u32,
      tryFrom_u64, tryFrom_f32, tryFrom_f64, Option.some.injEq]
    exact Nat.mod_eq_of_lt (by norm_num at hx ⊢; omega)
  · intro x hx
    rw [open_set_new [107] (BinnValue.UInt64 x) (by norm_num)
      (by simp [BinnValue.payload, encodeLE_length])]
    simp only [Option.some_bind, BinnObject.getAs_i8,
      BinnObject.getAs_i16, BinnObject.getAs_i32, BinnObject.getAs_i64,
      BinnObject.getAs_u8, BinnObject.getAs_u16, BinnObject.getAs_u32,
      BinnObject.getAs_u64, BinnObject.getAs_f32, BinnObject.getAs_f64,
      get_entries, lookupKey, BinnValue.tag, BinnValue.payload, decodeRead,
      BINN_BOOL, BINN_UINT8, BINN_INT8, BINN_UINT16, BINN_INT16,
      BINN_UINT32, BINN_INT32, BINN_FLOAT32, BINN_UINT64, BINN_INT64,
      BINN_FLOAT64, BINN_STRING, BINN_OBJECT, Nat.reduceEqDiff, reduceIte,
      if_true, Option.map_some', readMem_encodeLE, tryFrom_i8, tryFrom_i16,
      tryFrom_i32, tryFrom_i64, tryFrom_u8, tryFrom_u16, tryFrom_u32,
      tryFrom_u64, tryFrom_f32, tryFrom_f64, Option.some.injEq]
    exact Nat.mod_eq_of_lt (by norm_num at hx ⊢; omega)
  · intro x hx
    rw [open_set_new [107] (BinnValue.Float32 x) (by norm_num)
      (by simp [BinnValue.payload, encodeLE_length])]
    simp only [Option.some_bind, BinnObject.getAs_i8,
      BinnObject.getAs_i16, BinnObject.getAs_i32, BinnObject.getAs_i64,
      BinnObject.getAs_u8, BinnObject.getAs_u16, BinnObject.getAs_u32,
      BinnObject.getAs_u64, BinnObject.getAs_f32, BinnObject.getAs_f64,
      get_entries, lookupKey, BinnValue.tag, BinnValue.payload, decodeRead,
      BINN_BOOL, BINN_UINT8, BINN_INT8, BINN_UINT16, BINN_INT16,
      BINN_UINT32, BINN_INT32, BINN_FLOAT32, BINN_UINT64, BINN_INT64,
      BINN_FLOAT64, BINN_STRING, BINN_OBJECT, Nat.reduceEqDiff, reduceIte,
      if_true, Option.map_some', readMem_encodeLE, tryFrom_i8, tryFrom_i16,
      tryFrom_i32, tryFrom_i64, tryFrom_u8, tryFrom_u16, tryFrom_u32,
      tryFrom_u64, tryFrom_f32, tryFrom_f64, Option.some.injEq]
    exact Nat.mod_eq_of_lt (by norm_num at hx ⊢; omega)
  · intro x hx
    rw [open_set_new [107] (BinnValue.Float64 x) (by norm_num)
      (by simp [BinnValue.payload, encodeLE_length])]
    simp only [Option.some_bind, BinnObject.getAs_i8,
      BinnObject.getAs_i16, BinnObject.getAs_i32, BinnObject.getAs_i64,
      BinnObject.getAs_u8, BinnObject.getAs_u16, BinnObject.getAs_u32,
      BinnObject.getAs_u64, BinnObject.getAs_f32, BinnObject.getAs_f64,
      get_entries, lookupKey, BinnValue.tag, BinnValue.payload, decodeRead,
      BINN_BOOL, BINN_UINT8, BINN_INT8, BINN_UINT16, BINN_INT16,
      BINN_UINT32, BINN_INT32, BINN_FLOAT32, BINN_UINT64, BINN_INT64,
      BINN_FLOAT64, BINN_STRING, BINN_OBJECT, Nat.reduceEqDiff, reduceIte,
      if_true, Option.map_some', readMem_encodeLE, tryFrom_i8, tryFrom_i16,
      tryFrom_i32, tryFrom_i64, tryFrom_u8, tryFrom_u16, tryFrom_u32,
      tryFrom_u64, tryFrom_f32, tryFrom_f64, Option.some.injEq]
    exact Nat.mod_eq_of_lt (by norm_num at hx ⊢; omega)
  · intro x
    cases x <;> decide

/-- Witness for C1 at concrete values. -/
theorem claim_C1_witness :
    (binnOpen ((BinnObject.set BinnObject.new [107]
        (BinnValue.Int8 42)).asBytes)).bind
      (fun c => BinnObject.getAs_i8 c [107]) = some 42 ∧
    (binnOpen ((BinnObject.set BinnObject.new [107]
        (BinnValue.UInt64 42)).asBytes)).bind
      (fun c => BinnObject.getAs_u64 c [107]) = some 42 ∧
    (binnOpen ((BinnObject.set BinnObject.new [107]
        (BinnValue.Float64 4614253070214989087)).asBytes)).bind
      (fun c => BinnObject.getAs_f64 c [107]) =
        some 4614253070214989087 ∧
    (binnOpen ((BinnObject.set BinnObject.new [107]
        (BinnValue.Bool true)).asBytes)).bind
      (fun c => BinnObject.getAs_bool c [107]) = some true :=
  ⟨claim_C1_scalar_roundtrip.1 42 (by norm_num),
   claim_C1_scalar_roundtrip.2.2.2.2.2.2.2.1 42 (by norm_num),
   claim_C1_scalar_roundtrip.2.2.2.2.2.2.2.2.2.1 4614253070214989087
     (by norm_num),
   claim_C1_scalar_roundtrip.2.2.2.2.2.2.2.2.2.2 true⟩

set_option maxHeartbeats 2000000 in
/-- C2: width/signedness strictness.  Setting a key to an i64 value and
requesting it as any other type yields `none` even when the value would
fit, while requesting i64 returns the value; and each typed conversion out
of a tagged value succeeds exactly when the active variant is the
requested type. -/
theorem claim_C2_strictness :
    (∀ (b : BinnObject) (k : List Nat) (x : Nat), b.mode = Mode.build →
      k.length < 256 → x < 2 ^ 64 →
      BinnObject.getAs_i64 (BinnObject.set b k (BinnValue.Int64 x)) k = some x ∧
      BinnObject.getAs_i8 (BinnObject.set b k (BinnValue.Int64 x)) k = none ∧
      BinnObject.getAs_i16 (BinnObject.set b k (BinnValue.Int64 x)) k = none ∧
      BinnObject.getAs_i32 (BinnObject.set b k (BinnValue.Int64 x)) k = none ∧
      BinnObject.getAs_u8 (BinnObject.set b k (BinnValue.Int64 x)) k = none ∧
      BinnObject.getAs_u16 (BinnObject.set b k (BinnValue.Int64 x)) k = none ∧
      BinnObject.getAs_u32 (BinnObject.set b k (BinnValue.Int64 x)) k = none ∧
      BinnObject.getAs_u64 (BinnObject.set b k (BinnValue.Int64 x)) k = none ∧
      BinnObject.getAs_f32 (BinnObject.set b k (BinnValue.Int64 x)) k = none ∧
      BinnObject.getAs_f64 (BinnObject.set b k (BinnValue.Int64 x)) k = none ∧
      BinnObject.getAs_bool (BinnObject.set b k (BinnValue.Int64 x)) k = none ∧
      BinnObject.getAs_str (BinnObject.set b k (BinnValue.Int64 x)) k = none ∧
      BinnObject.getAs_obj (BinnObject.set b k (BinnValue.Int64 x)) k = none) ∧
    (∀ (v : BinnValue) (x : Nat),
      tryFrom_i8 v = some x ↔ v = BinnValue.Int8 x) ∧
    (∀ (v : BinnValue) (x : Nat),
      tryFrom_i16 v = some x ↔ v = BinnValue.Int16 x) ∧
    (∀ (v : BinnValue) (x : Nat),
      tryFrom_i32 v = some x ↔ v = BinnValue.Int32 x) ∧
    (∀ (v : BinnValue) (x : Nat),
      tryFrom_i64 v = some x ↔ v = BinnValue.Int64 x) ∧
    (∀ (v : BinnValue) (x : Nat),
      tryFrom_u8 v = some x ↔ v = BinnValue.UInt8 x) ∧
    (∀ (v : BinnValue) (x : Nat),
      tryFrom_u16 v = some x ↔ v = BinnValue.UInt16 x) ∧
    (∀ (v : BinnValue) (x : Nat),
      tryFrom_u32 v = some x ↔ v = BinnValue.UInt32 x) ∧
    (∀ (v : BinnValue) (x : Nat),
      tryFrom_u64 v = some x ↔ v = BinnValue.UInt64 x) ∧
    (∀ (v : BinnValue) (x : Nat),
      tryFrom_f32 v = some x ↔ v = BinnValue.Float32 x) ∧
    (∀ (v : BinnValue) (x : Nat),
      tryFrom_f64 v = some x ↔ v = BinnValue.Float64 x) ∧
    (∀ (v : BinnValue) (x : Bool),
      tryFrom_bool v = some x ↔ v = BinnValue.Bool x) ∧
    (∀ (v : BinnValue) (x : List Nat),
      tryFrom_str v = some x ↔ v = BinnValue.Str x) ∧
    (∀ (v : BinnValue) (x : BinnObject),
      tryFrom_obj v = some x ↔ v = BinnValue.Object x) := by
  refine ⟨?_, ?_, ?_, ?_, ?_, ?_, ?_, ?_, ?_, ?_, ?_, ?_, ?_, ?_⟩
  · intro b k x hm hk hx
    have hget : BinnObject.get (BinnObject.set b k (BinnValue.Int64 x)) k =
        some (BinnValue.Int64 x) := by
      rw [set_build b k (BinnValue.Int64 x) hm hk
        (by simp [BinnValue.payload, encodeLE_length]), get_entries]
      simp only [lookupKey_setKey_self]
      simp only [BinnValue.tag, BinnValue.payload, decodeRead,
        BINN_BOOL, BINN_UINT8, BINN_INT8, BINN_UINT16, BINN_INT16,
        BINN_UINT32, BINN_INT32, BINN_FLOAT32, BINN_UINT64, BINN_INT64,
        BINN_FLOAT64, BINN_STRING, BINN_OBJECT, Nat.reduceEqDiff, reduceIte, Option.map_some',
        readMem_encodeLE, Option.some.injEq, BinnValue.Int64.injEq]
      exact Nat.mod_eq_of_lt (by norm_num at hx ⊢; omega)
    refine ⟨?_, ?_, ?_, ?_, ?_, ?_, ?_, ?_, ?_, ?_, ?_, ?_, ?_⟩ <;>
      simp [BinnObject.getAs_i8, BinnObject.getAs_i16, BinnObject.getAs_i32, BinnObject.getAs_i64, BinnObject.getAs_u8, BinnObject.getAs_u16, BinnObject.getAs_u32, BinnObject.getAs_u64, BinnObject.getAs_f32, BinnObject.getAs_f64, BinnObject.getAs_bool, BinnObject.getAs_str, BinnObject.getAs_obj, hget, tryFrom_i8, tryFrom_i16, tryFrom_i32, tryFrom_i64, tryFrom_u8, tryFrom_u16, tryFrom_u32, tryFrom_u64, tryFrom_f32, tryFrom_f64, tryFrom_bool, tryFrom_str, tryFrom_obj, Option.some_bind]
  all_goals
    intro v x
    cases v <;> simp [tryFrom_i8, tryFrom_i16, tryFrom_i32, tryFrom_i64, tryFrom_u8, tryFrom_u16, tryFrom_u32, tryFrom_u64, tryFrom_f32, tryFrom_f64, tryFrom_bool, tryFrom_str, tryFrom_obj]

/-- Witness for C2 at value 42, which fits every narrower type, and one
conversion instance. -/
theorem claim_C2_witness :
    BinnObject.getAs_i64 (BinnObject.set BinnObject.new [107]
      (BinnValue.Int64 42)) [107] = some 42 ∧
    BinnObject.getAs_i32 (BinnObject.set BinnObject.new [107]
      (BinnValue.Int64 42)) [107] = none ∧
    BinnObject.getAs_u64 (BinnObject.set BinnObject.new [107]
      (BinnValue.Int64 42)) [107] = none ∧
    (tryFrom_i8 (BinnValue.Int8 5) = some 5 ↔
      BinnValue.Int8 5 = BinnValue.Int8 5) :=
  ⟨(claim_C2_strictness.1 BinnObject.new [107] 42 rfl (by norm_num)
      (by norm_num)).1,
   (claim_C2_strictness.1 BinnObject.new [107] 42 rfl (by norm_num)
      (by norm_num)).2.2.2.1,
   (claim_C2_strictness.1 BinnObject.new [107] 42 rfl (by norm_num)
      (by norm_num)).2.2.2.2.2.2.2.1,
   claim_C2_strictness.2.1 (BinnValue.Int8 5) 5⟩

/-- C3: calling `set` on a key that already holds a value replaces the
entry atomically: the state equals the one obtained by the second `set`
alone, whatever `get` then returns at the key carries the second value's
tag, and when the two values have different types the `get_as` accessor of
the first value's type returns `none`. -/
theorem claim_C3_overwrite (b : BinnObject) (k : List Nat) (v1 v2 : BinnValue)
    (hm : b.mode = Mode.build) (hk : k.length < 256)
    (hp1 : v1.payload.length < 2 ^ 32) (hp2 : v2.payload.length < 2 ^ 32) :
    BinnObject.set (BinnObject.set b k v1) k v2 = BinnObject.set b k v2 ∧
    (∀ w, (BinnObject.set (BinnObject.set b k v1) k v2).get k = some w →
      w.tag = v2.tag) ∧
    (v1.tag ≠ v2.tag →
      accessorOfIsNone v1 (BinnObject.set (BinnObject.set b k v1) k v2) k) := by
  have h1 := set_build b k v1 hm hk hp1
  have hmode : (BinnObject.set b k v1).mode = Mode.build := by
    rw [h1]; exact hm
  have h2 := set_build (BinnObject.set b k v1) k v2 hmode hk hp2
  have hstate : BinnObject.set (BinnObject.set b k v1) k v2 =
      BinnObject.set b k v2 := by
    rw [h2, set_build b k v2 hm hk hp2, h1]
    simp [setKey_setKey]
  refine ⟨hstate, ?_, ?_⟩
  · rw [hstate]
    exact get_set_tag b k v2 hm hk hp2
  · intro hne
    rw [hstate]
    refine accessorOfIsNone_of_tag v1 _ k ?_
    intro w hw
    rw [get_set_tag b k v2 hm hk hp2 w hw]
    exact fun hh => hne hh.symm

/-- Witness for C3: an i32 entry overwritten by a text entry; the i32
accessor afterwards yields none and the state equals a single `set`. -/
theorem claim_C3_witness :
    (BinnObject.set (BinnObject.set BinnObject.new [107] (BinnValue.Int32 7))
        [107] (BinnValue.Str [104, 105]) =
      BinnObject.set BinnObject.new [107] (BinnValue.Str [104, 105]) ∧
    (∀ w, (BinnObject.set (BinnObject.set BinnObject.new [107]
        (BinnValue.Int32 7)) [107] (BinnValue.Str [104, 105])).get [107] =
          some w → w.tag = (BinnValue.Str [104, 105]).tag) ∧
    ((BinnValue.Int32 7).tag ≠ (BinnValue.Str [104, 105]).tag →
      accessorOfIsNone (BinnValue.Int32 7)
        (BinnObject.set (BinnObject.set BinnObject.new [107]
          (BinnValue.Int32 7)) [107] (BinnValue.Str [104, 105])) [107])) ∧
    BinnObject.getAs_i32 (BinnObject.set (BinnObject.set BinnObject.new [107]
      (BinnValue.Int32 7)) [107] (BinnValue.Str [104, 105])) [107] = none :=
  ⟨claim_C3_overwrite BinnObject.new [107] (BinnValue.Int32 7)
    (BinnValue.Str [104, 105]) rfl (by norm_num) (by decide) (by decide),
   by decide⟩

/-- C7: for every key absent from a container, `get` and every `get_as`
accessor return `none`, and this outcome is the very same `none` produced
when a key is present with a value of a different type than requested. -/
theorem claim_C7_missing_key (b : BinnObject) (k : List Nat)
    (h : lookupKey b.entries k = none) :
    BinnObject.get b k = none ∧
    (∀ (b2 : BinnObject) (k2 : List Nat),
      (∀ w, BinnObject.get b2 k2 = some w → w.tag ≠ BINN_INT64) →
      BinnObject.getAs_i64 b2 k2 = BinnObject.getAs_i64 b k) ∧
    BinnObject.getAs_i8 b k = none ∧
    BinnObject.getAs_i16 b k = none ∧
    BinnObject.getAs_i32 b k = none ∧
    BinnObject.getAs_i64 b k = none ∧
    BinnObject.getAs_u8 b k = none ∧
    BinnObject.getAs_u16 b k = none ∧
    BinnObject.getAs_u32 b k = none ∧
    BinnObject.getAs_u64 b k = none ∧
    BinnObject.getAs_f32 b k = none ∧
    BinnObject.getAs_f64 b k = none ∧
    BinnObject.getAs_bool b k = none ∧
    BinnObject.getAs_str b k = none ∧
    BinnObject.getAs_obj b k = none := by
  have hget : BinnObject.get b k = none := by
    rw [get_entries, h]
  refine ⟨hget, ?_, ?_, ?_, ?_, ?_, ?_, ?_, ?_, ?_, ?_, ?_, ?_, ?_, ?_⟩
  · intro b2 k2 h2
    have hb2 : BinnObject.getAs_i64 b2 k2 = none := by
      cases hg : BinnObject.get b2 k2 with
      | none => simp [BinnObject.getAs_i64, hg]
      | some w =>
        have hw := h2 w hg
        cases w <;>
          first
          | exact absurd rfl hw
          | simp [BinnObject.getAs_i64, hg, tryFrom_i64]
    rw [hb2]
    simp [BinnObject.getAs_i64, hget]
  all_goals simp [BinnObject.getAs_i8, BinnObject.getAs_i16, BinnObject.getAs_i32, BinnObject.getAs_i64, BinnObject.getAs_u8, BinnObject.getAs_u16, BinnObject.getAs_u32, BinnObject.getAs_u64, BinnObject.getAs_f32, BinnObject.getAs_f64, BinnObject.getAs_bool, BinnObject.getAs_str, BinnObject.getAs_obj, hget, Option.none_bind]

/-- Witness for C7 on an empty container: the missing-key result and its
coincidence with a type-mismatch result at a concrete mismatching pair. -/
theorem claim_C7_witness :
    BinnObject.get ⟨Mode.build, true, []⟩ [107] = none ∧
    BinnObject.getAs_i8 ⟨Mode.build, true, []⟩ [107] = none ∧
    BinnObject.getAs_i64 ⟨Mode.openedMode, false,
        [([107], BINN_INT8, [5])]⟩ [107] =
      BinnObject.getAs_i64 ⟨Mode.build, true, []⟩ [107] :=
  ⟨(claim_C7_missing_key ⟨Mode.build, true, []⟩ [107] rfl).1,
   (claim_C7_missing_key ⟨Mode.build, true, []⟩ [107] rfl).2.2.1,
   (claim_C7_missing_key ⟨Mode.build, true, []⟩ [107] rfl).2.1
     ⟨Mode.openedMode, false, [([107], BINN_INT8, [5])]⟩ [107]
     (fun w hw => by
        have hgv : BinnObject.get ⟨Mode.openedMode, false,
            [([107], BINN_INT8, [5])]⟩ [107] = some (BinnValue.Int8 5) := by
          decide
        rw [hgv, Option.some.injEq] at hw
        subst hw
        decide)⟩

end Binn
